import Mathlib

/-!
# System information viewer: `updateSystemInfo`, `byteToGB`, `formatDuration`

A shallow embedding of `src/main.go`.  The provider calls (`os.Hostname`,
`cpu.Info`, `mem.VirtualMemory`, `disk.Partitions`, `disk.Usage`, `host.Uptime`,
`os.Getenv`, the `runtime` constants) are inputs, gathered in `Providers`; the reading
of `time.Now` is a further input; the labels of `SystemInfoUI` are the state that
`updateSystemInfo` rewrites.

`float64` arithmetic is modelled on rationals with IEEE-754 binary64
round-to-nearest-even after every operation; `int64` arithmetic wraps modulo `2^64`.
-/

namespace SysInfo

/-! ## binary64 arithmetic -/

/-- Round a rational to the nearest integer, ties to the even neighbour. -/
def roundHalfEven (q : ℚ) : ℤ :=
  let f := ⌊q⌋
  let r := q - f
  if r < 1 / 2 then f
  else if 1 / 2 < r then f + 1
  else if f % 2 = 0 then f else f + 1

/-- Exponent of the unit in the last place of the binary64 binade of `q`:
53 significant bits for normal numbers, `2^-1074` for subnormal ones. -/
def ulpExponent (q : ℚ) : ℤ :=
  max (Int.log 2 |q| - 52) (-1074)

/-- Round-to-nearest-even of a rational onto the binary64 grid, exponent range
unbounded above (overflow is decided by `Float64.ofRat`). -/
def roundBinary64 (q : ℚ) : ℚ :=
  (roundHalfEven (q / (2 : ℚ) ^ ulpExponent q) : ℚ) * (2 : ℚ) ^ ulpExponent q

/-- Values of Go's `float64`.  The two zeros are identified. -/
inductive Float64 where
  | finite (q : ℚ)
  | inf (neg : Bool)
  | nan
  deriving DecidableEq

/-- The binary64 value nearest to a rational; magnitudes that round to `2^1024` or
more overflow to an infinity. -/
def Float64.ofRat (q : ℚ) : Float64 :=
  let r := roundBinary64 q
  if (2 : ℚ) ^ 1024 ≤ |r| then Float64.inf (decide (q < 0)) else Float64.finite r

/-- Go conversion `float64(n)` of an integer. -/
def Float64.ofInt (n : ℤ) : Float64 := Float64.ofRat n

/-- Go `x + y` on `float64`. -/
def Float64.add : Float64 → Float64 → Float64
  | Float64.finite a, Float64.finite b => Float64.ofRat (a + b)
  | Float64.finite _, Float64.inf n => Float64.inf n
  | Float64.inf n, Float64.finite _ => Float64.inf n
  | Float64.inf n, Float64.inf m => if n = m then Float64.inf n else Float64.nan
  | _, _ => Float64.nan

/-- Go `x / c` on `float64` for a positive constant `c` that is itself a binary64 value. -/
def Float64.divConst (x : Float64) (c : ℚ) : Float64 :=
  match x with
  | Float64.finite a => Float64.ofRat (a / c)
  | Float64.inf n => Float64.inf n
  | Float64.nan => Float64.nan

/-- Wrap an integer into the `int64` range (two's complement). -/
def wrapInt64 (x : ℤ) : ℤ := (x + 2 ^ 63) % 2 ^ 64 - 2 ^ 63

/-- Go conversion `int(x)` of a `float64` on a 64-bit target: truncation toward zero;
a value outside the `int64` range (or an infinity or NaN) gives `-2^63`, as on amd64. -/
def Float64.toInt : Float64 → ℤ
  | Float64.finite q =>
      let t : ℤ := if 0 ≤ q then ⌊q⌋ else ⌈q⌉
      if -(2 : ℤ) ^ 63 ≤ t ∧ t < 2 ^ 63 then t else -(2 : ℤ) ^ 63
  | _ => -(2 : ℤ) ^ 63

/-! ## Formatting verbs of `fmt.Sprintf` and `time.Format` -/

/-- Left-pad a digit string with `0` up to the given width. -/
def zeroPad (width : ℕ) (digits : String) : String :=
  String.mk (List.replicate (width - digits.length) '0') ++ digits

/-- The verb `%d` of `fmt.Sprintf` on an integer. -/
def fmtD (n : ℤ) : String :=
  if n < 0 then "-" ++ Nat.repr n.natAbs else Nat.repr n.natAbs

/-- The verb `%02d` of `fmt.Sprintf`: width 2, zero padding, the sign counted in
the width. -/
def fmt02D (n : ℤ) : String :=
  if n < 0 then "-" ++ zeroPad 1 (Nat.repr n.natAbs) else zeroPad 2 (Nat.repr n.natAbs)

/-- The verb `%.2f` of `fmt.Sprintf`: the exact value rounded to two decimals, ties
to even. -/
def fmtF2 : Float64 → String
  | Float64.nan => "NaN"
  | Float64.inf false => "+Inf"
  | Float64.inf true => "-Inf"
  | Float64.finite q =>
      let n := (roundHalfEven (|q| * 100)).natAbs
      (if q < 0 then "-" else "") ++ Nat.repr (n / 100) ++ "." ++ zeroPad 2 (Nat.repr (n % 100))

/-- Civil date and time read from `time.Now()` in the local zone. -/
structure Time where
  year : ℤ
  month : ℕ
  day : ℕ
  hour : ℕ
  minute : ℕ
  second : ℕ
  deriving DecidableEq

/-- Padded integer of `time.Format`: sign, then the digits zero-padded to the width. -/
def appendInt (x : ℤ) (width : ℕ) : String :=
  (if x < 0 then "-" else "") ++ zeroPad width (Nat.repr x.natAbs)

/-- The call `t.Format("2006-01-02 15:04:05")`. -/
def Time.Format (t : Time) : String :=
  appendInt t.year 4 ++ "-" ++ appendInt t.month 2 ++ "-" ++ appendInt t.day 2 ++ " " ++
    appendInt t.hour 2 ++ ":" ++ appendInt t.minute 2 ++ ":" ++ appendInt t.second 2

/-! ## `time.Duration` -/

/-- Nanoseconds in one second: `time.Second`. -/
def Second : ℤ := 1000000000

/-- Nanoseconds in one minute: `time.Minute`. -/
def Minute : ℤ := 60 * Second

/-- Nanoseconds in one hour: `time.Hour`. -/
def Hour : ℤ := 60 * Minute

/-- Method `Duration.Hours`: `float64(d / Hour) + float64(d % Hour) / (60*60*1e9)`,
with Go's truncating integer division. -/
def Duration.Hours (d : ℤ) : Float64 :=
  Float64.add (Float64.ofInt (Int.tdiv d Hour))
    (Float64.divConst (Float64.ofInt (Int.tmod d Hour)) (60 * 60 * 1000000000))

/-- Method `Duration.Minutes`: `float64(d / Minute) + float64(d % Minute) / (60*1e9)`. -/
def Duration.Minutes (d : ℤ) : Float64 :=
  Float64.add (Float64.ofInt (Int.tdiv d Minute))
    (Float64.divConst (Float64.ofInt (Int.tmod d Minute)) (60 * 1000000000))

/-- Method `Duration.Seconds`: `float64(d / Second) + float64(d % Second) / 1e9`. -/
def Duration.Seconds (d : ℤ) : Float64 :=
  Float64.add (Float64.ofInt (Int.tdiv d Second))
    (Float64.divConst (Float64.ofInt (Int.tmod d Second)) 1000000000)

/-! ## The helpers of `main.go` -/

/-- Source `byteToGB`: `float64(b) / (1024 * 1024 * 1024)`. -/
def byteToGB (b : ℕ) : Float64 :=
  Float64.divConst (Float64.ofInt b) (1024 * 1024 * 1024)

/-- The four locals `days`, `hours`, `minutes`, `seconds` of `formatDuration`. -/
def durationParts (d : ℤ) : ℤ × ℤ × ℤ × ℤ :=
  let days := Float64.toInt (Float64.divConst (Duration.Hours d) 24)
  let hours := Int.tmod (Float64.toInt (Duration.Hours d)) 24
  let minutes := Int.tmod (Float64.toInt (Duration.Minutes d)) 60
  let seconds := Int.tmod (Float64.toInt (Duration.Seconds d)) 60
  (days, hours, minutes, seconds)

/-- Source `formatDuration`: the four locals rendered by
`fmt.Sprintf("%d天 %02d小时 %02d分 %02d秒", days, hours, minutes, seconds)`. -/
def formatDuration (d : ℤ) : String :=
  let (days, hours, minutes, seconds) := durationParts d
  fmtD days ++ "天 " ++ fmt02D hours ++ "小时 " ++ fmt02D minutes ++ "分 " ++
    fmt02D seconds ++ "秒"

/-! ## Provider results -/

/-- Go `error` values. -/
abbrev GoError := String

/-- A Go result pair `(value, err)`; `err = none` is `err == nil`. -/
structure Result (α : Type) where
  val : α
  err : Option GoError

/-- The fields of gopsutil `cpu.InfoStat` that the program reads. -/
structure InfoStat where
  ModelName : String
  Cores : ℤ

/-- The fields of gopsutil `mem.VirtualMemoryStat` that the program reads. -/
structure VirtualMemoryStat where
  Total : ℕ
  Used : ℕ
  Free : ℕ
  UsedPercent : Float64

/-- The field of gopsutil `disk.PartitionStat` that the program reads. -/
structure PartitionStat where
  Mountpoint : String

/-- The fields of gopsutil `disk.UsageStat` that the program reads. -/
structure UsageStat where
  Total : ℕ
  Used : ℕ
  Free : ℕ
  UsedPercent : Float64

/-- What one run of `updateSystemInfo` reads from the system.  The two calls that
return a pointer (`mem.VirtualMemory`, `disk.Usage`) give either an error or the
record pointed to. -/
structure Providers where
  hostname : Result String
  GOOS : String
  GOARCH : String
  cpuInfo : Result (List InfoStat)
  NumCPU : ℤ
  virtualMemory : Except GoError VirtualMemoryStat
  partitions : Result (List PartitionStat)
  usage : String → Except GoError UsageStat
  getenv : String → String
  uptime : Result ℕ

/-! ## The labels -/

/-- Text of each label of the source struct `SystemInfoUI`. -/
structure SystemInfoUI where
  hostnameLabel : String
  osLabel : String
  archLabel : String
  cpuNameLabel : String
  cpuCoresLabel : String
  memTotalLabel : String
  memUsedLabel : String
  memFreeLabel : String
  diskTotalLabel : String
  diskUsedLabel : String
  diskFreeLabel : String
  userLabel : String
  uptimeLabel : String
  timeLabel : String
  deriving DecidableEq

/-- The 14 field keys, in display order. -/
inductive Field where
  | Hostname | OS | Arch | CPUName | CPUCores | MemTotal | MemUsed | MemFree
  | DiskTotal | DiskUsed | DiskFree | User | Uptime | Timestamp
  deriving DecidableEq

/-- The label text shown for a field key. -/
def SystemInfoUI.text (ui : SystemInfoUI) : Field → String
  | Field.Hostname => ui.hostnameLabel
  | Field.OS => ui.osLabel
  | Field.Arch => ui.archLabel
  | Field.CPUName => ui.cpuNameLabel
  | Field.CPUCores => ui.cpuCoresLabel
  | Field.MemTotal => ui.memTotalLabel
  | Field.MemUsed => ui.memUsedLabel
  | Field.MemFree => ui.memFreeLabel
  | Field.DiskTotal => ui.diskTotalLabel
  | Field.DiskUsed => ui.diskUsedLabel
  | Field.DiskFree => ui.diskFreeLabel
  | Field.User => ui.userLabel
  | Field.Uptime => ui.uptimeLabel
  | Field.Timestamp => ui.timeLabel

/-- The string the source writes when a query fails. -/
def failed : String := "获取失败"

/-- The conversion `time.Duration(uptime) * time.Second` of a `uint64` uptime, in
wrapping `int64` arithmetic. -/
def uptimeDuration (uptime : ℕ) : ℤ :=
  wrapInt64 (wrapInt64 uptime * Second)

/-- Source `updateSystemInfo`, one `SetText` per line; the closing `Refresh` calls
leave the texts unchanged. -/
def updateSystemInfo (p : Providers) (now : Time) (ui : SystemInfoUI) : SystemInfoUI :=
  -- hostname
  let hostname := if p.hostname.err ≠ none then failed else p.hostname.val
  let ui := { ui with hostnameLabel := hostname }
  -- OS and architecture
  let ui := { ui with osLabel := p.GOOS }
  let ui := { ui with archLabel := p.GOARCH }
  -- CPU
  let ui :=
    match p.cpuInfo.err, p.cpuInfo.val with
    | none, c :: _ =>
        let ui := { ui with cpuNameLabel := c.ModelName }
        { ui with cpuCoresLabel := fmtD c.Cores ++ " (逻辑核: " ++ fmtD p.NumCPU ++ ")" }
    | _, _ =>
        let ui := { ui with cpuNameLabel := failed }
        { ui with cpuCoresLabel := fmtD p.NumCPU }
  -- memory
  let ui :=
    match p.virtualMemory with
    | Except.ok vMem =>
        let ui := { ui with memTotalLabel := fmtF2 (byteToGB vMem.Total) ++ " GB" }
        let used := fmtF2 (byteToGB vMem.Used) ++ " GB (" ++ fmtF2 vMem.UsedPercent ++ "%)"
        let ui := { ui with memUsedLabel := used }
        { ui with memFreeLabel := fmtF2 (byteToGB vMem.Free) ++ " GB" }
    | Except.error _ =>
        let ui := { ui with memTotalLabel := failed }
        let ui := { ui with memUsedLabel := failed }
        { ui with memFreeLabel := failed }
  -- disk: the first partition only
  let ui :=
    match p.partitions.err, p.partitions.val with
    | none, part :: _ =>
        match p.usage part.Mountpoint with
        | Except.ok usage =>
            let ui := { ui with diskTotalLabel := fmtF2 (byteToGB usage.Total) ++ " GB" }
            let used := fmtF2 (byteToGB usage.Used) ++ " GB (" ++ fmtF2 usage.UsedPercent ++ "%)"
            let ui := { ui with diskUsedLabel := used }
            { ui with diskFreeLabel := fmtF2 (byteToGB usage.Free) ++ " GB" }
        | Except.error _ =>
            let ui := { ui with diskTotalLabel := failed }
            let ui := { ui with diskUsedLabel := failed }
            { ui with diskFreeLabel := failed }
    | _, _ =>
        let ui := { ui with diskTotalLabel := failed }
        let ui := { ui with diskUsedLabel := failed }
        { ui with diskFreeLabel := failed }
  -- current user
  let currentUser := p.getenv "USERNAME"
  let currentUser := if currentUser = "" then p.getenv "USER" else currentUser
  let currentUser := if currentUser = "" then "未知" else currentUser
  let ui := { ui with userLabel := currentUser }
  -- uptime
  let ui :=
    match p.uptime.err with
    | none => { ui with uptimeLabel := formatDuration (uptimeDuration p.uptime.val) }
    | some _ => { ui with uptimeLabel := failed }
  -- current time
  { ui with timeLabel := now.Format }

/-! ## The blocks of `updateSystemInfo`

Each block of the routine, read on its own: the text it writes to its labels. -/

/-- Text the hostname block writes to `hostnameLabel`. -/
def hostnameText (p : Providers) : String :=
  if p.hostname.err ≠ none then failed else p.hostname.val

/-- Texts the CPU block writes to `cpuNameLabel` and `cpuCoresLabel`. -/
def cpuTexts (p : Providers) : String × String :=
  match p.cpuInfo.err, p.cpuInfo.val with
  | none, c :: _ => (c.ModelName, fmtD c.Cores ++ " (逻辑核: " ++ fmtD p.NumCPU ++ ")")
  | _, _ => (failed, fmtD p.NumCPU)

/-- Texts the memory block writes to `memTotalLabel`, `memUsedLabel`, `memFreeLabel`. -/
def memTexts (p : Providers) : String × String × String :=
  match p.virtualMemory with
  | Except.ok vMem =>
      (fmtF2 (byteToGB vMem.Total) ++ " GB",
        fmtF2 (byteToGB vMem.Used) ++ " GB (" ++ fmtF2 vMem.UsedPercent ++ "%)",
        fmtF2 (byteToGB vMem.Free) ++ " GB")
  | Except.error _ => (failed, failed, failed)

/-- Texts the disk block writes to `diskTotalLabel`, `diskUsedLabel`, `diskFreeLabel`. -/
def diskTexts (p : Providers) : String × String × String :=
  match p.partitions.err, p.partitions.val with
  | none, part :: _ =>
      match p.usage part.Mountpoint with
      | Except.ok usage =>
          (fmtF2 (byteToGB usage.Total) ++ " GB",
            fmtF2 (byteToGB usage.Used) ++ " GB (" ++ fmtF2 usage.UsedPercent ++ "%)",
            fmtF2 (byteToGB usage.Free) ++ " GB")
      | Except.error _ => (failed, failed, failed)
  | _, _ => (failed, failed, failed)

/-- Text the user block writes to `userLabel`. -/
def userText (p : Providers) : String :=
  let currentUser := p.getenv "USERNAME"
  let currentUser := if currentUser = "" then p.getenv "USER" else currentUser
  if currentUser = "" then "未知" else currentUser

/-- Text the uptime block writes to `uptimeLabel`. -/
def uptimeText (p : Providers) : String :=
  match p.uptime.err with
  | none => formatDuration (uptimeDuration p.uptime.val)
  | some _ => failed

/-! ## Vocabulary of the specification -/

/-- A number below 100 written with two decimal digits, a leading zero when needed. -/
def twoDigits (n : ℕ) : String :=
  if n < 10 then "0" ++ Nat.repr n else Nat.repr n

/-- The field groups whose query can fail. -/
inductive Group where
  | hostname | cpu | memory | disk | uptime
  deriving DecidableEq

/-- The group a field belongs to; `OS`, `Arch`, `User` and `Timestamp` have no query
that can fail. -/
def Field.group : Field → Option Group
  | Field.Hostname => some Group.hostname
  | Field.CPUName => some Group.cpu
  | Field.CPUCores => some Group.cpu
  | Field.MemTotal => some Group.memory
  | Field.MemUsed => some Group.memory
  | Field.MemFree => some Group.memory
  | Field.DiskTotal => some Group.disk
  | Field.DiskUsed => some Group.disk
  | Field.DiskFree => some Group.disk
  | Field.Uptime => some Group.uptime
  | _ => none

/-- The query of a group gave nothing to display: it returned an error, or an empty
list where the first entry is read. -/
def Providers.groupFailed (p : Providers) : Group → Bool
  | Group.hostname => p.hostname.err.isSome
  | Group.cpu => p.cpuInfo.err.isSome || p.cpuInfo.val.isEmpty
  | Group.memory =>
      match p.virtualMemory with
      | Except.ok _ => false
      | Except.error _ => true
  | Group.disk =>
      p.partitions.err.isSome ||
        match p.partitions.val with
        | [] => true
        | part :: _ =>
            match p.usage part.Mountpoint with
            | Except.ok _ => false
            | Except.error _ => true
  | Group.uptime => p.uptime.err.isSome

/-- The query behind a field failed. -/
def Providers.queryFailed (p : Providers) (f : Field) : Bool :=
  match f.group with
  | some g => p.groupFailed g
  | none => false

/-- Two sets of provider outcomes that differ at most in the query of one group. -/
def Providers.agreeExcept (g : Group) (p q : Providers) : Prop :=
  (g ≠ Group.hostname → p.hostname = q.hostname) ∧
  (g ≠ Group.cpu → p.cpuInfo = q.cpuInfo) ∧
  (g ≠ Group.memory → p.virtualMemory = q.virtualMemory) ∧
  (g ≠ Group.disk → p.partitions = q.partitions ∧ p.usage = q.usage) ∧
  (g ≠ Group.uptime → p.uptime = q.uptime) ∧
  p.GOOS = q.GOOS ∧ p.GOARCH = q.GOARCH ∧ p.NumCPU = q.NumCPU ∧ p.getenv = q.getenv

/-! ## Sample inputs -/

/-- A system on which every query succeeds. -/
def healthyProviders : Providers where
  hostname := ⟨"devbox", none⟩
  GOOS := "linux"
  GOARCH := "amd64"
  cpuInfo := ⟨[⟨"Example CPU", 4⟩, ⟨"Second CPU", 2⟩], none⟩
  NumCPU := 8
  virtualMemory := Except.ok ⟨17179869184, 8589934592, 4294967296, Float64.finite 50⟩
  partitions := ⟨[⟨"/"⟩, ⟨"/home"⟩], none⟩
  usage := fun path =>
    if path = "/" then Except.ok ⟨107374182400, 53687091200, 53687091200, Float64.finite 50⟩
    else Except.error "no such mount point"
  getenv := fun name => if name = "USER" then "alice" else ""
  uptime := ⟨90061, none⟩

/-- A system on which every query fails and no user variable is set. -/
def failingProviders : Providers where
  hostname := ⟨"", some "hostname unavailable"⟩
  GOOS := "linux"
  GOARCH := "amd64"
  cpuInfo := ⟨[], some "cpu unavailable"⟩
  NumCPU := 8
  virtualMemory := Except.error "memory unavailable"
  partitions := ⟨[], some "partitions unavailable"⟩
  usage := fun _ => Except.error "usage unavailable"
  getenv := fun _ => ""
  uptime := ⟨0, some "uptime unavailable"⟩

/-- A wall-clock reading. -/
def sampleTime : Time := ⟨2026, 11, 4, 9, 5, 7⟩

/-- A later wall-clock reading. -/
def laterTime : Time := ⟨2026, 11, 4, 9, 5, 12⟩

/-- The labels as `main` creates them, all empty. -/
def emptyUI : SystemInfoUI := ⟨"", "", "", "", "", "", "", "", "", "", "", "", "", ""⟩

/-- Labels holding stale text. -/
def staleUI : SystemInfoUI :=
  ⟨"old", "old", "old", "old", "old", "old", "old", "old", "old", "old", "old", "old", "old",
    "old"⟩

/-! ### The rounding lemmas -/

theorem roundHalfEven_le {q : ℚ} {n : ℤ} (h : q ≤ n) : roundHalfEven q ≤ n := by
  have hf : ⌊q⌋ ≤ n := Int.floor_le_iff.mpr (by linarith)
  unfold roundHalfEven
  by_cases hq : q = n
  · subst hq
    simp
  · have hlt : q < n := lt_of_le_of_ne h hq
    have hf1 : ⌊q⌋ + 1 ≤ n := by
      have : ⌊q⌋ < n := Int.floor_lt.mpr hlt
      omega
    simp only
    split_ifs <;> omega

theorem le_roundHalfEven {q : ℚ} {n : ℤ} (h : (n : ℚ) ≤ q) : n ≤ roundHalfEven q := by
  have hf : n ≤ ⌊q⌋ := Int.le_floor.mpr h
  unfold roundHalfEven
  simp only
  split_ifs <;> omega

theorem ulpExponent_le {x : ℚ} {t : ℕ} (ht : t ≤ 52)
    (hx : |x| < (2 : ℚ) ^ (53 - t)) : ulpExponent x ≤ -(t : ℤ) := by
  unfold ulpExponent
  apply max_le
  · rcases (abs_nonneg x).eq_or_lt with h0 | hpos
    · rw [← h0, Int.log_zero_right]
      omega
    · have h2 : |x| < ((2 : ℕ) : ℚ) ^ (((53 - t : ℕ) : ℤ)) := by
        rw [zpow_natCast]
        exact_mod_cast hx
      have := (Int.lt_zpow_iff_log_lt (by norm_num : 1 < 2) hpos).mp h2
      omega
  · omega

/-- A dyadic `a / 2^t` is an integer multiple of every `2^e` with `e ≤ -t`. -/
theorem dyadic_eq_mul_zpow (a : ℤ) (t : ℕ) {e : ℤ} (he : e ≤ -(t : ℤ)) :
    (a : ℚ) / (2 : ℚ) ^ t = ((a * 2 ^ (-(t : ℤ) - e).toNat : ℤ) : ℚ) * (2 : ℚ) ^ e := by
  have hk : (((-(t : ℤ) - e).toNat : ℕ) : ℤ) = -(t : ℤ) - e := Int.toNat_of_nonneg (by omega)
  have h2 : (2 : ℚ) ≠ 0 := by norm_num
  push_cast
  rw [mul_assoc, ← zpow_natCast (2 : ℚ) (-(t : ℤ) - e).toNat, hk, ← zpow_add₀ h2]
  rw [show -(t : ℤ) - e + e = -(t : ℤ) by ring, zpow_neg, zpow_natCast]
  rfl

/-- Rounding never crosses a binary64 value: upper side. -/
theorem roundBinary64_le {x : ℚ} {a : ℤ} {t : ℕ} (ht : t ≤ 52)
    (hx : |x| < (2 : ℚ) ^ (53 - t)) (h : x ≤ (a : ℚ) / (2 : ℚ) ^ t) :
    roundBinary64 x ≤ (a : ℚ) / (2 : ℚ) ^ t := by
  have he := ulpExponent_le ht hx
  have hpos : (0 : ℚ) < (2 : ℚ) ^ ulpExponent x := zpow_pos (by norm_num) _
  rw [dyadic_eq_mul_zpow a t he] at h ⊢
  unfold roundBinary64
  apply mul_le_mul_of_nonneg_right _ hpos.le
  have : x / (2 : ℚ) ^ ulpExponent x ≤ ((a * 2 ^ (-(t : ℤ) - ulpExponent x).toNat : ℤ) : ℚ) :=
    (div_le_iff₀ hpos).mpr h
  exact_mod_cast roundHalfEven_le this

/-- Rounding never crosses a binary64 value: lower side. -/
theorem le_roundBinary64 {x : ℚ} {a : ℤ} {t : ℕ} (ht : t ≤ 52)
    (hx : |x| < (2 : ℚ) ^ (53 - t)) (h : (a : ℚ) / (2 : ℚ) ^ t ≤ x) :
    (a : ℚ) / (2 : ℚ) ^ t ≤ roundBinary64 x := by
  have he := ulpExponent_le ht hx
  have hpos : (0 : ℚ) < (2 : ℚ) ^ ulpExponent x := zpow_pos (by norm_num) _
  rw [dyadic_eq_mul_zpow a t he] at h ⊢
  unfold roundBinary64
  apply mul_le_mul_of_nonneg_right _ hpos.le
  have : ((a * 2 ^ (-(t : ℤ) - ulpExponent x).toNat : ℤ) : ℚ) ≤ x / (2 : ℚ) ^ ulpExponent x :=
    (le_div_iff₀ hpos).mpr h
  exact_mod_cast le_roundHalfEven this

/-- A dyadic with at most `53 - t` integer bits and `t` fractional bits is a binary64
value: rounding leaves it unchanged. -/
theorem roundBinary64_dyadic {a : ℤ} {t : ℕ} (ht : t ≤ 52)
    (hx : |(a : ℚ) / (2 : ℚ) ^ t| < (2 : ℚ) ^ (53 - t)) :
    roundBinary64 ((a : ℚ) / (2 : ℚ) ^ t) = (a : ℚ) / (2 : ℚ) ^ t :=
  le_antisymm (roundBinary64_le ht hx le_rfl) (le_roundBinary64 ht hx le_rfl)

/-! ### Conversions and operations on small values -/

theorem Float64.ofRat_of_abs_lt {x : ℚ} (hx : |x| < (2 : ℚ) ^ 53) :
    Float64.ofRat x = Float64.finite (roundBinary64 x) := by
  have hx0 : |x| < (2 : ℚ) ^ (53 - 0) := hx
  have hup := roundBinary64_le (a := 2 ^ 53) (t := 0) (by norm_num) hx0
    (by push_cast; rw [pow_zero, div_one]; exact (le_abs_self x).trans hx.le)
  have hlo := le_roundBinary64 (a := -2 ^ 53) (t := 0) (by norm_num) hx0
    (by push_cast; rw [pow_zero, div_one]; linarith [neg_abs_le x])
  push_cast at hup hlo
  rw [pow_zero, div_one] at hup hlo
  have habs : |roundBinary64 x| ≤ (2 : ℚ) ^ 53 := abs_le.mpr ⟨hlo, hup⟩
  have hbig : (2 : ℚ) ^ 53 < (2 : ℚ) ^ 1024 := by norm_num
  unfold Float64.ofRat
  simp only
  rw [if_neg (not_le.mpr (habs.trans_lt hbig))]

/-- Rounding a small value keeps it between two binary64 dyadics that enclose it. -/
theorem Float64.ofRat_between {x : ℚ} {l u : ℤ} {t : ℕ} (ht : t ≤ 52)
    (hx : |x| < (2 : ℚ) ^ (53 - t))
    (hlo : (l : ℚ) / (2 : ℚ) ^ t ≤ x) (hhi : x ≤ (u : ℚ) / (2 : ℚ) ^ t) :
    ∃ r, Float64.ofRat x = Float64.finite r ∧
      (l : ℚ) / (2 : ℚ) ^ t ≤ r ∧ r ≤ (u : ℚ) / (2 : ℚ) ^ t := by
  have h53 : |x| < (2 : ℚ) ^ 53 := by
    exact hx.trans_le (pow_le_pow_right₀ (by norm_num) (by omega))
  exact ⟨roundBinary64 x, Float64.ofRat_of_abs_lt h53, le_roundBinary64 ht hx hlo,
    roundBinary64_le ht hx hhi⟩

/-- Integers below `2^53` convert to `float64` exactly. -/
theorem Float64.ofInt_natCast {m : ℕ} (h : m < 2 ^ 53) :
    Float64.ofInt (m : ℤ) = Float64.finite (m : ℚ) := by
  have hm : |((m : ℤ) : ℚ)| < (2 : ℚ) ^ 53 := by
    rw [abs_of_nonneg (by positivity)]
    exact_mod_cast h
  unfold Float64.ofInt
  rw [Float64.ofRat_of_abs_lt hm]
  have := roundBinary64_dyadic (a := (m : ℤ)) (t := 0) (by norm_num)
    (by rw [pow_zero, div_one]; exact hm)
  rw [pow_zero, div_one] at this
  rw [this]
  simp

/-! ### Durations of whole seconds -/

/-- A duration of `s` whole seconds counted in units of `u` seconds, as the methods
`Hours`, `Minutes` and `Seconds` compute it: the result is a finite value between the
integer quotient and the quotient plus `4095/4096`. -/
theorem units_of_seconds {u : ℕ} (hu : 0 < u) (hu' : u ≤ 4096) {s : ℕ} (hs : s < 2 ^ 34) :
    ∃ f, Float64.add (Float64.ofInt (Int.tdiv ((s : ℤ) * Second) ((u : ℤ) * Second)))
        (Float64.divConst (Float64.ofInt (Int.tmod ((s : ℤ) * Second) ((u : ℤ) * Second)))
          ((u : ℚ) * 1000000000)) = Float64.finite f ∧
      ((s / u : ℕ) : ℚ) ≤ f ∧ f ≤ ((s / u : ℕ) : ℚ) + 4095 / 4096 := by
  have hs' : s < 17179869184 := by simpa using hs
  have hq : s / u ≤ s := Nat.div_le_self s u
  have hk : s % u < u := Nat.mod_lt s hu
  have e1 : Int.tdiv ((s : ℤ) * Second) ((u : ℤ) * Second) = ((s / u : ℕ) : ℤ) := by
    unfold Second
    rw [show (s : ℤ) * 1000000000 = ((s * 1000000000 : ℕ) : ℤ) by push_cast; ring,
      show (u : ℤ) * 1000000000 = ((u * 1000000000 : ℕ) : ℤ) by push_cast; ring,
      ← Int.ofNat_tdiv, Nat.mul_div_mul_right _ _ (by norm_num)]
  have e2 : Int.tmod ((s : ℤ) * Second) ((u : ℤ) * Second) =
      ((s % u * 1000000000 : ℕ) : ℤ) := by
    unfold Second
    rw [show (s : ℤ) * 1000000000 = ((s * 1000000000 : ℕ) : ℤ) by push_cast; ring,
      show (u : ℤ) * 1000000000 = ((u * 1000000000 : ℕ) : ℤ) by push_cast; ring,
      ← Int.ofNat_tmod, Nat.mul_mod_mul_right]
  have b1 : s / u < 2 ^ 53 := by
    have : (17179869184 : ℕ) < 2 ^ 53 := by norm_num
    omega
  have b2 : s % u * 1000000000 < 2 ^ 53 := by
    have : (4096 * 1000000000 : ℕ) < 2 ^ 53 := by norm_num
    have : s % u * 1000000000 < 4096 * 1000000000 :=
      Nat.mul_lt_mul_of_pos_right (by omega) (by norm_num)
    omega
  rw [e1, e2, Float64.ofInt_natCast b1, Float64.ofInt_natCast b2]
  simp only [Float64.divConst]
  clear e1 e2
  generalize s / u = n at *
  have hupos : (0 : ℚ) < (u : ℚ) := by exact_mod_cast hu
  have hfrac : ((s % u * 1000000000 : ℕ) : ℚ) / ((u : ℚ) * 1000000000) =
      ((s % u : ℕ) : ℚ) / (u : ℚ) := by
    push_cast
    field_simp
    ring
  have hk0 : (0 : ℚ) ≤ ((s % u : ℕ) : ℚ) / (u : ℚ) := by positivity
  have hk1 : ((s % u : ℕ) : ℚ) / (u : ℚ) ≤ 4095 / 4096 := by
    rw [div_le_div_iff₀ hupos (by norm_num)]
    have h1 : ((s % u : ℕ) : ℚ) + 1 ≤ (u : ℚ) := by exact_mod_cast hk
    have h2 : (u : ℚ) ≤ 4096 := by exact_mod_cast hu'
    linarith
  obtain ⟨f1, hf1, hlo1, hhi1⟩ := Float64.ofRat_between
    (x := ((s % u * 1000000000 : ℕ) : ℚ) / ((u : ℚ) * 1000000000))
    (l := 0) (u := 4095) (t := 12) (by norm_num)
    (by rw [hfrac, abs_of_nonneg hk0]; norm_num; linarith)
    (by rw [hfrac]; norm_num; exact hk0)
    (by rw [hfrac]; norm_num; exact hk1)
  norm_num at hlo1 hhi1
  rw [hf1]
  simp only [Float64.add]
  have hqQ : (n : ℚ) < 17179869184 := by
    have : n < 17179869184 := by omega
    exact_mod_cast this
  have hq0 : (0 : ℚ) ≤ (n : ℚ) := by positivity
  obtain ⟨f2, hf2, hlo2, hhi2⟩ := Float64.ofRat_between
    (x := (n : ℚ) + f1)
    (l := (n : ℤ) * 4096) (u := (n : ℤ) * 4096 + 4095) (t := 12)
    (by norm_num)
    (by rw [abs_of_nonneg (by linarith)]; norm_num; linarith)
    (by push_cast; norm_num; linarith)
    (by push_cast; norm_num; linarith)
  refine ⟨f2, hf2, ?_, ?_⟩
  · push_cast at hlo2
    norm_num at hlo2
    linarith
  · push_cast at hhi2
    norm_num at hhi2
    linarith

/-- Conversion `int(x)` of a finite value lying in `[n, n + 1)`. -/
theorem Float64.toInt_between {f : ℚ} {n : ℕ} (hn : n < 2 ^ 63) (hlo : (n : ℚ) ≤ f)
    (hhi : f < (n : ℚ) + 1) : Float64.toInt (Float64.finite f) = (n : ℤ) := by
  have h0 : (0 : ℚ) ≤ f := le_trans (by positivity) hlo
  have hfl : ⌊f⌋ = (n : ℤ) := Int.floor_eq_iff.mpr ⟨by exact_mod_cast hlo, by exact_mod_cast hhi⟩
  have hn' : (n : ℤ) < 2 ^ 63 := by exact_mod_cast hn
  unfold Float64.toInt
  simp only [if_pos h0, hfl]
  rw [if_pos ⟨by omega, hn'⟩]

/-- Dividing an hour count in `[h, h + 4095/4096]` by 24 lands in `[h / 24, h / 24 + 1)`. -/
theorem Float64.divConst_24_between {f : ℚ} {h : ℕ} (hh : h < 2 ^ 34) (hlo : (h : ℚ) ≤ f)
    (hhi : f ≤ (h : ℚ) + 4095 / 4096) :
    ∃ g, Float64.divConst (Float64.finite f) 24 = Float64.finite g ∧
      ((h / 24 : ℕ) : ℚ) ≤ g ∧ g < ((h / 24 : ℕ) : ℚ) + 1 := by
  have hh' : h < 17179869184 := by simpa using hh
  have hdm : 24 * (h / 24) + h % 24 = h := Nat.div_add_mod h 24
  have hr : h % 24 < 24 := Nat.mod_lt h (by norm_num)
  have hD : h / 24 ≤ h := Nat.div_le_self h 24
  generalize h / 24 = D at *
  generalize h % 24 = r at *
  have hhQ : (h : ℚ) = 24 * (D : ℚ) + (r : ℚ) := by exact_mod_cast hdm.symm
  have hrQ : (r : ℚ) ≤ 23 := by
    have : r ≤ 23 := by omega
    exact_mod_cast this
  have hr0 : (0 : ℚ) ≤ (r : ℚ) := by positivity
  have hD0 : (0 : ℚ) ≤ (D : ℚ) := by positivity
  have hDQ : (D : ℚ) < 17179869184 := by
    have : D < 17179869184 := by omega
    exact_mod_cast this
  simp only [Float64.divConst]
  obtain ⟨g, hg, hlo2, hhi2⟩ := Float64.ofRat_between (x := f / 24)
    (l := (D : ℤ) * 131072) (u := (D : ℤ) * 131072 + 131071) (t := 17) (by norm_num)
    (by rw [abs_of_nonneg (by linarith)]; norm_num; linarith)
    (by push_cast; norm_num; linarith)
    (by push_cast; norm_num; linarith)
  refine ⟨g, hg, ?_, ?_⟩
  · push_cast at hlo2
    norm_num at hlo2
    linarith
  · push_cast at hhi2
    norm_num at hhi2
    linarith

/-- The locals of `formatDuration` on a duration of `s` whole seconds. -/
theorem durationParts_seconds {s : ℕ} (hs : (s : ℤ) * Second < 2 ^ 63) :
    durationParts ((s : ℤ) * Second) =
      (((s / 86400 : ℕ) : ℤ), ((s / 3600 % 24 : ℕ) : ℤ), ((s / 60 % 60 : ℕ) : ℤ),
        ((s % 60 : ℕ) : ℤ)) := by
  have hs34 : s < 2 ^ 34 := by
    unfold Second at hs
    norm_num at hs ⊢
    omega
  have hs' : s < 17179869184 := by simpa using hs34
  obtain ⟨fh, hfh, hhlo, hhhi⟩ := units_of_seconds (u := 3600) (by norm_num) (by norm_num) hs34
  obtain ⟨fm, hfm, hmlo, hmhi⟩ := units_of_seconds (u := 60) (by norm_num) (by norm_num) hs34
  obtain ⟨fs, hfs, hslo, hshi⟩ := units_of_seconds (u := 1) (by norm_num) (by norm_num) hs34
  have eH : Duration.Hours ((s : ℤ) * Second) = Float64.finite fh := by
    rw [← hfh]
    unfold Duration.Hours Hour Minute
    norm_num [← mul_assoc]
  have eM : Duration.Minutes ((s : ℤ) * Second) = Float64.finite fm := by
    rw [← hfm]
    unfold Duration.Minutes Minute
    norm_num
  have eS : Duration.Seconds ((s : ℤ) * Second) = Float64.finite fs := by
    rw [← hfs]
    unfold Duration.Seconds
    norm_num
  have bh : s / 3600 < 2 ^ 34 := lt_of_le_of_lt (Nat.div_le_self _ _) hs34
  obtain ⟨g, hg, hglo, hghi⟩ := Float64.divConst_24_between bh hhlo hhhi
  have b63 : ∀ n : ℕ, n ≤ s → n < 2 ^ 63 := by
    intro n hn
    have : (17179869184 : ℕ) < 2 ^ 63 := by norm_num
    omega
  have tD := Float64.toInt_between (b63 _ ((Nat.div_le_self _ 24).trans (Nat.div_le_self s 3600)))
    hglo hghi
  have tH := Float64.toInt_between (b63 _ (Nat.div_le_self s 3600)) hhlo (by linarith)
  have tM := Float64.toInt_between (b63 _ (Nat.div_le_self s 60)) hmlo (by linarith)
  have tS := Float64.toInt_between (b63 _ (Nat.div_le_self s 1)) hslo (by linarith)
  have t24 : ∀ n : ℕ, Int.tmod (n : ℤ) 24 = ((n % 24 : ℕ) : ℤ) :=
    fun n => (Int.ofNat_tmod n 24).symm
  have t60 : ∀ n : ℕ, Int.tmod (n : ℤ) 60 = ((n % 60 : ℕ) : ℤ) :=
    fun n => (Int.ofNat_tmod n 60).symm
  unfold durationParts
  simp only [eH, eM, eS, hg, tD, tH, tM, tS, t24, t60, Nat.div_div_eq_div_mul, Nat.div_one]

/-! ### Rendering of small numbers -/

theorem fmtD_natCast (n : ℕ) : fmtD (n : ℤ) = Nat.repr n := by
  unfold fmtD
  rw [if_neg (by omega), Int.natAbs_ofNat]

theorem fmt02D_natCast {n : ℕ} (h : n < 100) : fmt02D (n : ℤ) = twoDigits n := by
  unfold fmt02D
  rw [if_neg (by omega), Int.natAbs_ofNat]
  interval_cases n <;> rfl

/-- The string `formatDuration` returns on a duration of `s` whole seconds. -/
theorem formatDuration_seconds {s : ℕ} (hs : (s : ℤ) * Second < 2 ^ 63) :
    formatDuration ((s : ℤ) * Second) =
      Nat.repr (s / 86400) ++ "天 " ++ twoDigits (s / 3600 % 24) ++ "小时 " ++
        twoDigits (s / 60 % 60) ++ "分 " ++ twoDigits (s % 60) ++ "秒" := by
  unfold formatDuration
  rw [durationParts_seconds hs]
  simp only [fmtD_natCast]
  rw [fmt02D_natCast (by omega), fmt02D_natCast (by omega), fmt02D_natCast (by omega)]

theorem formatDuration_90061 : formatDuration (90061 * Second) = "1天 01小时 01分 01秒" := by
  have h := formatDuration_seconds (s := 90061) (by unfold Second; norm_num)
  rw [show ((90061 : ℕ) : ℤ) = 90061 from rfl] at h
  rw [h]
  decide

theorem formatDuration_59 : formatDuration (59 * Second) = "0天 00小时 00分 59秒" := by
  have h := formatDuration_seconds (s := 59) (by unfold Second; norm_num)
  rw [show ((59 : ℕ) : ℤ) = 59 from rfl] at h
  rw [h]
  decide

theorem byteToGB_of_lt {b : ℕ} (h : b < 2 ^ 53) :
    byteToGB b = Float64.finite ((b : ℚ) / 2 ^ 30) := by
  have hb : (b : ℚ) < 2 ^ 53 := by exact_mod_cast h
  have hb0 : (0 : ℚ) ≤ (b : ℚ) := by positivity
  have hx : |((b : ℤ) : ℚ) / (2 : ℚ) ^ 30| < (2 : ℚ) ^ (53 - 30) := by
    rw [abs_of_nonneg (by positivity)]
    push_cast
    rw [div_lt_iff₀ (by positivity), ← pow_add]
    exact hb
  unfold byteToGB
  rw [Float64.ofInt_natCast h]
  simp only [Float64.divConst]
  rw [show ((b : ℚ) / (1024 * 1024 * 1024)) = ((b : ℤ) : ℚ) / (2 : ℚ) ^ 30 by push_cast; norm_num]
  rw [Float64.ofRat_of_abs_lt (hx.trans (by norm_num)), roundBinary64_dyadic (by norm_num) hx]
  simp

theorem uptimeDuration_of_le {u : ℕ} (h : u * 10 ^ 9 ≤ 2 ^ 63 - 1) :
    uptimeDuration u = (u : ℤ) * Second := by
  unfold uptimeDuration wrapInt64 Second
  have h1 : (u : ℤ) * 1000000000 ≤ 2 ^ 63 - 1 := by
    have : ((u * 10 ^ 9 : ℕ) : ℤ) ≤ ((2 ^ 63 - 1 : ℕ) : ℤ) := by exact_mod_cast h
    push_cast at this
    norm_num at this ⊢
    linarith
  have h0 : (0 : ℤ) ≤ (u : ℤ) := by positivity
  rw [Int.emod_eq_of_lt (a := (u : ℤ) + 2 ^ 63) (by omega) (by omega)]
  rw [show (u : ℤ) + 2 ^ 63 - 2 ^ 63 = u by ring]
  rw [Int.emod_eq_of_lt (by omega) (by omega)]
  ring

theorem seconds_lt_of_le {s : ℕ} (h : s * 10 ^ 9 ≤ 2 ^ 63 - 1) : (s : ℤ) * Second < 2 ^ 63 := by
  unfold Second
  have : ((s * 10 ^ 9 : ℕ) : ℤ) ≤ ((2 ^ 63 - 1 : ℕ) : ℤ) := by exact_mod_cast h
  push_cast at this
  norm_num at this ⊢
  linarith

/-! ### The labels after one run -/

/-- One run overwrites every label: the result is the record of the texts of the blocks. -/
theorem updateSystemInfo_eq (p : Providers) (now : Time) (ui : SystemInfoUI) :
    updateSystemInfo p now ui =
      ⟨hostnameText p, p.GOOS, p.GOARCH, (cpuTexts p).1, (cpuTexts p).2,
        (memTexts p).1, (memTexts p).2.1, (memTexts p).2.2,
        (diskTexts p).1, (diskTexts p).2.1, (diskTexts p).2.2,
        userText p, uptimeText p, now.Format⟩ := by
  unfold updateSystemInfo hostnameText cpuTexts memTexts diskTexts userText uptimeText
  simp only
  split <;> split <;> split <;> (try split) <;> split <;> rfl

theorem cpuTexts_of_failed {p : Providers} (h : p.cpuInfo.err ≠ none ∨ p.cpuInfo.val = []) :
    cpuTexts p = (failed, fmtD p.NumCPU) := by
  unfold cpuTexts
  split
  · rename_i he hv
    rcases h with h | h
    · exact absurd he h
    · rw [h] at hv
      cases hv
  · rfl

theorem cpuTexts_of_cons {p : Providers} {c : InfoStat} {rest : List InfoStat}
    (he : p.cpuInfo.err = none) (hv : p.cpuInfo.val = c :: rest) :
    cpuTexts p = (c.ModelName, fmtD c.Cores ++ " (逻辑核: " ++ fmtD p.NumCPU ++ ")") := by
  unfold cpuTexts
  rw [he, hv]

theorem cpuTexts_congr {p q : Providers} (he : q.cpuInfo.err = p.cpuInfo.err)
    (hv : q.cpuInfo.val.head? = p.cpuInfo.val.head?) (hn : q.NumCPU = p.NumCPU) :
    cpuTexts q = cpuTexts p := by
  unfold cpuTexts
  rw [he, hn]
  cases hp : p.cpuInfo.val <;> cases hq : q.cpuInfo.val <;> rw [hp, hq] at hv <;>
    simp at hv
  all_goals try subst hv
  all_goals cases p.cpuInfo.err <;> rfl

theorem diskTexts_of_failed {p : Providers}
    (h : p.partitions.err ≠ none ∨ p.partitions.val = [] ∨
      ∃ part rest e, p.partitions.val = part :: rest ∧
        p.usage part.Mountpoint = Except.error e) :
    diskTexts p = (failed, failed, failed) := by
  unfold diskTexts
  split
  · rename_i part tl he hv
    rcases h with h | h | ⟨part', rest, e, hv', hu⟩
    · exact absurd he h
    · rw [h] at hv
      cases hv
    · rw [hv'] at hv
      cases hv
      rw [hu]
  · rfl

theorem diskTexts_of_ok {p : Providers} {part : PartitionStat} {rest : List PartitionStat}
    {usage : UsageStat} (he : p.partitions.err = none) (hv : p.partitions.val = part :: rest)
    (hu : p.usage part.Mountpoint = Except.ok usage) :
    diskTexts p = (fmtF2 (byteToGB usage.Total) ++ " GB",
      fmtF2 (byteToGB usage.Used) ++ " GB (" ++ fmtF2 usage.UsedPercent ++ "%)",
      fmtF2 (byteToGB usage.Free) ++ " GB") := by
  unfold diskTexts
  rw [he, hv]
  simp only [hu]

theorem diskTexts_congr {p q : Providers} (he : q.partitions.err = p.partitions.err)
    (hv : q.partitions.val.head? = p.partitions.val.head?) (hu : q.usage = p.usage) :
    diskTexts q = diskTexts p := by
  unfold diskTexts
  rw [he, hu]
  cases hp : p.partitions.val <;> cases hq : q.partitions.val <;> rw [hp, hq] at hv <;>
    simp at hv
  all_goals try subst hv
  all_goals cases p.partitions.err <;> rfl

theorem userText_eq (p : Providers) :
    userText p =
      if p.getenv "USERNAME" = "" then
        (if p.getenv "USER" = "" then "未知" else p.getenv "USER")
      else p.getenv "USERNAME" := by
  unfold userText
  by_cases h1 : p.getenv "USERNAME" = "" <;> by_cases h2 : p.getenv "USER" = "" <;>
    simp [h1, h2]

theorem hostnameText_congr {p q : Providers} (h : p.hostname = q.hostname) :
    hostnameText p = hostnameText q := by
  unfold hostnameText
  rw [h]

theorem memTexts_congr {p q : Providers} (h : p.virtualMemory = q.virtualMemory) :
    memTexts p = memTexts q := by
  unfold memTexts
  rw [h]

theorem userText_congr {p q : Providers} (h : p.getenv = q.getenv) :
    userText p = userText q := by
  unfold userText
  rw [h]

theorem uptimeText_congr {p q : Providers} (h : p.uptime = q.uptime) :
    uptimeText p = uptimeText q := by
  unfold uptimeText
  rw [h]

/-- Outside the group of a query, the text of a field does not read that query. -/
theorem text_congr_outside {g : Group} {p q : Providers} (h : Providers.agreeExcept g p q)
    (now : Time) (ui ui' : SystemInfoUI) {f : Field} (hf : f.group ≠ some g) :
    (updateSystemInfo p now ui).text f = (updateSystemInfo q now ui').text f := by
  obtain ⟨hh, hc, hm, hd, hu, hos, har, hn, hg⟩ := h
  have e1 : g ≠ Group.hostname → hostnameText p = hostnameText q :=
    fun hne => hostnameText_congr (hh hne)
  have e2 : g ≠ Group.cpu → cpuTexts p = cpuTexts q :=
    fun hne => (cpuTexts_congr (congrArg Result.err (hc hne)).symm
      (congrArg (fun r => r.val.head?) (hc hne)).symm hn.symm).symm
  have e3 : g ≠ Group.memory → memTexts p = memTexts q :=
    fun hne => memTexts_congr (hm hne)
  have e4 : g ≠ Group.disk → diskTexts p = diskTexts q :=
    fun hne => (diskTexts_congr (congrArg Result.err (hd hne).1).symm
      (congrArg (fun r => r.val.head?) (hd hne).1).symm (hd hne).2.symm).symm
  have e5 : g ≠ Group.uptime → uptimeText p = uptimeText q :=
    fun hne => uptimeText_congr (hu hne)
  have e6 : userText p = userText q := userText_congr hg
  rw [updateSystemInfo_eq, updateSystemInfo_eq]
  cases f <;> simp only [SystemInfoUI.text, Field.group] at hf ⊢
  · rw [e1 (fun h => hf (by rw [h]))]
  · exact hos
  · exact har
  · rw [e2 (fun h => hf (by rw [h]))]
  · rw [e2 (fun h => hf (by rw [h]))]
  · rw [e3 (fun h => hf (by rw [h]))]
  · rw [e3 (fun h => hf (by rw [h]))]
  · rw [e3 (fun h => hf (by rw [h]))]
  · rw [e4 (fun h => hf (by rw [h]))]
  · rw [e4 (fun h => hf (by rw [h]))]
  · rw [e4 (fun h => hf (by rw [h]))]
  · exact e6
  · rw [e5 (fun h => hf (by rw [h]))]


/-! ### Failed groups -/

theorem hostnameText_of_groupFailed {p : Providers}
    (h : p.groupFailed Group.hostname = true) : hostnameText p = failed := by
  simp only [Providers.groupFailed, Option.isSome_iff_ne_none] at h
  unfold hostnameText
  rw [if_pos h]

theorem cpuTexts_of_groupFailed {p : Providers} (h : p.groupFailed Group.cpu = true) :
    cpuTexts p = (failed, fmtD p.NumCPU) := by
  simp only [Providers.groupFailed, Bool.or_eq_true, Option.isSome_iff_ne_none,
    List.isEmpty_iff] at h
  exact cpuTexts_of_failed h

theorem memTexts_of_groupFailed {p : Providers} (h : p.groupFailed Group.memory = true) :
    memTexts p = (failed, failed, failed) := by
  simp only [Providers.groupFailed] at h
  revert h
  unfold memTexts
  cases p.virtualMemory <;> simp

theorem diskTexts_of_groupFailed {p : Providers} (h : p.groupFailed Group.disk = true) :
    diskTexts p = (failed, failed, failed) := by
  simp only [Providers.groupFailed, Bool.or_eq_true, Option.isSome_iff_ne_none] at h
  apply diskTexts_of_failed
  rcases h with h | h
  · exact Or.inl h
  · right
    revert h
    cases hv : p.partitions.val with
    | nil => intro _; exact Or.inl rfl
    | cons part rest =>
        intro h
        right
        cases hu : p.usage part.Mountpoint with
        | ok u => simp [hu] at h
        | error e => exact ⟨part, rest, e, rfl, hu⟩

theorem uptimeText_of_groupFailed {p : Providers} (h : p.groupFailed Group.uptime = true) :
    uptimeText p = failed := by
  simp only [Providers.groupFailed] at h
  revert h
  unfold uptimeText
  cases p.uptime.err <;> simp

/-! ## Properties C1 to C10 -/

/-- C1, as stated, fails: on a system whose CPU query fails, the CPU-cores field
belongs to a failed query and still does not hold the failure placeholder. -/
theorem C1_cpuCores_keeps_count_on_failure :
    ¬ ∀ f : Field, failingProviders.queryFailed f = true →
      (updateSystemInfo failingProviders sampleTime emptyUI).text f = failed := by
  intro h
  have h1 := h Field.CPUCores (by decide)
  rw [updateSystemInfo_eq] at h1
  revert h1
  decide

/-- C1, amended: one run of `updateSystemInfo` overwrites all 14 labels whatever they
held before, so no path leaves a field unassigned; every field other than CPUCores whose
query failed holds the failure placeholder, and CPUCores then holds the decimal logical
core count. -/
theorem C1_every_field_assigned (p : Providers) (now : Time) (ui ui' : SystemInfoUI) :
    updateSystemInfo p now ui = updateSystemInfo p now ui' ∧
    (∀ f : Field, f ≠ Field.CPUCores → p.queryFailed f = true →
      (updateSystemInfo p now ui).text f = failed) ∧
    (p.queryFailed Field.CPUCores = true →
      (updateSystemInfo p now ui).text Field.CPUCores = fmtD p.NumCPU) := by
  refine ⟨by rw [updateSystemInfo_eq, updateSystemInfo_eq], ?_, ?_⟩
  · intro f hf hq
    rw [updateSystemInfo_eq]
    cases f <;> simp only [Providers.queryFailed, Field.group, reduceCtorEq] at hq <;>
      simp only [SystemInfoUI.text]
    · exact hostnameText_of_groupFailed hq
    · rw [cpuTexts_of_groupFailed hq]
    · exact absurd rfl hf
    · rw [memTexts_of_groupFailed hq]
    · rw [memTexts_of_groupFailed hq]
    · rw [memTexts_of_groupFailed hq]
    · rw [diskTexts_of_groupFailed hq]
    · rw [diskTexts_of_groupFailed hq]
    · rw [diskTexts_of_groupFailed hq]
    · exact uptimeText_of_groupFailed hq
  · intro hq
    rw [updateSystemInfo_eq]
    simp only [SystemInfoUI.text]
    rw [cpuTexts_of_groupFailed hq]

/-- C1, amended, on a system where every query fails: the hostname label, whatever it
held, shows the failure placeholder. -/
theorem C1_every_field_assigned_witness :
    (updateSystemInfo failingProviders sampleTime staleUI).text Field.Hostname = failed :=
  (C1_every_field_assigned failingProviders sampleTime staleUI emptyUI).2.1 Field.Hostname
    (by decide) (by decide)

/-- C2, as stated, fails: `formatDuration` on 90061 seconds does not return
"1d 01h 01m 01s". -/
theorem C2_not_latin_units : formatDuration (90061 * Second) ≠ "1d 01h 01m 01s" := by
  rw [formatDuration_90061]
  decide

/-- C2, amended: `formatDuration` on 90061 seconds returns "1天 01小时 01分 01秒" and on
59 seconds returns "0天 00小时 00分 59秒": the numbers of the claim, with the unit labels
of the source. -/
theorem C2_formatDuration_examples :
    formatDuration (90061 * Second) = "1天 01小时 01分 01秒" ∧
      formatDuration (59 * Second) = "0天 00小时 00分 59秒" :=
  ⟨formatDuration_90061, formatDuration_59⟩

/-- C3: on a duration of `s` whole seconds that fits `time.Duration`, `formatDuration`
renders, in order, `s / 86400` unpadded, then `s / 3600 mod 24`, `s / 60 mod 60` and
`s mod 60`, each with two digits. -/
theorem C3_formatDuration_components (s : ℕ) (h : s * 10 ^ 9 ≤ 2 ^ 63 - 1) :
    formatDuration ((s : ℤ) * Second) =
      Nat.repr (s / 86400) ++ "天 " ++ twoDigits (s / 3600 % 24) ++ "小时 " ++
        twoDigits (s / 60 % 60) ++ "分 " ++ twoDigits (s % 60) ++ "秒" :=
  formatDuration_seconds (seconds_lt_of_le h)

/-- C3 at 90061 seconds. -/
theorem C3_formatDuration_components_witness :
    formatDuration (((90061 : ℕ) : ℤ) * Second) =
      Nat.repr (90061 / 86400) ++ "天 " ++ twoDigits (90061 / 3600 % 24) ++ "小时 " ++
        twoDigits (90061 / 60 % 60) ++ "分 " ++ twoDigits (90061 % 60) ++ "秒" :=
  C3_formatDuration_components 90061 (by norm_num)

/-- C4: for a byte count below `2^53`, `byteToGB` is exactly the rational `b / 2^30`;
`byteToGB 1073741824` is `1`, rendered "1.00". -/
theorem C4_byteToGB_exact (b : ℕ) (h : b < 2 ^ 53) :
    byteToGB b = Float64.finite ((b : ℚ) / 2 ^ 30) ∧
      byteToGB 1073741824 = Float64.finite 1 ∧ fmtF2 (byteToGB 1073741824) = "1.00" := by
  have h1 : byteToGB 1073741824 = Float64.finite 1 := by
    rw [byteToGB_of_lt (by norm_num)]
    norm_num
  refine ⟨byteToGB_of_lt h, h1, ?_⟩
  rw [h1]
  have hr : roundHalfEven (|(1 : ℚ)| * 100) = 100 := by
    rw [abs_one, one_mul]
    unfold roundHalfEven
    have : ⌊(100 : ℚ)⌋ = 100 := by exact_mod_cast Int.floor_intCast (100 : ℤ)
    simp only [this]
    norm_num
  unfold fmtF2
  simp only [hr]
  decide

/-- C4 at 16 GiB. -/
theorem C4_byteToGB_exact_witness :
    byteToGB 17179869184 = Float64.finite (((17179869184 : ℕ) : ℚ) / 2 ^ 30) :=
  (C4_byteToGB_exact 17179869184 (by norm_num)).1

/-- C5: when the CPU query errors or returns an empty list, the CPU-name label is the
failure placeholder and the CPU-cores label is the logical core count alone; when it
succeeds with a non-empty list, the labels show the first entry's model name and its
core count paired with the logical core count; runs that agree on the error, the first
entry and the logical core count show the same two labels. -/
theorem C5_cpu_fields (p : Providers) (now : Time) (ui : SystemInfoUI) :
    ((p.cpuInfo.err ≠ none ∨ p.cpuInfo.val = []) →
      (updateSystemInfo p now ui).cpuNameLabel = failed ∧
        (updateSystemInfo p now ui).cpuCoresLabel = fmtD p.NumCPU) ∧
    (∀ (c : InfoStat) (rest : List InfoStat), p.cpuInfo.err = none →
      p.cpuInfo.val = c :: rest →
      (updateSystemInfo p now ui).cpuNameLabel = c.ModelName ∧
        (updateSystemInfo p now ui).cpuCoresLabel =
          fmtD c.Cores ++ " (逻辑核: " ++ fmtD p.NumCPU ++ ")") ∧
    (∀ (q : Providers) (now' : Time) (ui' : SystemInfoUI), q.cpuInfo.err = p.cpuInfo.err →
      q.cpuInfo.val.head? = p.cpuInfo.val.head? → q.NumCPU = p.NumCPU →
      (updateSystemInfo q now' ui').cpuNameLabel = (updateSystemInfo p now ui).cpuNameLabel ∧
        (updateSystemInfo q now' ui').cpuCoresLabel =
          (updateSystemInfo p now ui).cpuCoresLabel) := by
  refine ⟨?_, ?_, ?_⟩
  · intro h
    rw [updateSystemInfo_eq]
    simp only [cpuTexts_of_failed h, and_self]
  · intro c rest he hv
    rw [updateSystemInfo_eq]
    simp only [cpuTexts_of_cons he hv, and_self]
  · intro q now' ui' he hv hn
    rw [updateSystemInfo_eq, updateSystemInfo_eq]
    simp only [cpuTexts_congr he hv hn, and_self]

/-- C5 on a healthy system: the CPU-name label is the model name of the first entry. -/
theorem C5_cpu_fields_witness :
    (updateSystemInfo healthyProviders sampleTime emptyUI).cpuNameLabel = "Example CPU" :=
  ((C5_cpu_fields healthyProviders sampleTime emptyUI).2.1 ⟨"Example CPU", 4⟩
    [⟨"Second CPU", 2⟩] rfl rfl).1

/-- C6: when partition enumeration errors or is empty, or the usage query of the first
mount point fails, the three disk labels are the failure placeholder; otherwise they are
computed from the usage of the first partition's mount point; runs that agree on the
enumeration error, the first entry and the usage query show the same disk labels. -/
theorem C6_disk_fields (p : Providers) (now : Time) (ui : SystemInfoUI) :
    ((p.partitions.err ≠ none ∨ p.partitions.val = [] ∨
        ∃ part rest e, p.partitions.val = part :: rest ∧
          p.usage part.Mountpoint = Except.error e) →
      (updateSystemInfo p now ui).diskTotalLabel = failed ∧
        (updateSystemInfo p now ui).diskUsedLabel = failed ∧
        (updateSystemInfo p now ui).diskFreeLabel = failed) ∧
    (∀ (part : PartitionStat) (rest : List PartitionStat) (usage : UsageStat),
      p.partitions.err = none → p.partitions.val = part :: rest →
      p.usage part.Mountpoint = Except.ok usage →
      (updateSystemInfo p now ui).diskTotalLabel = fmtF2 (byteToGB usage.Total) ++ " GB" ∧
        (updateSystemInfo p now ui).diskUsedLabel =
          fmtF2 (byteToGB usage.Used) ++ " GB (" ++ fmtF2 usage.UsedPercent ++ "%)" ∧
        (updateSystemInfo p now ui).diskFreeLabel = fmtF2 (byteToGB usage.Free) ++ " GB") ∧
    (∀ (q : Providers) (now' : Time) (ui' : SystemInfoUI),
      q.partitions.err = p.partitions.err →
      q.partitions.val.head? = p.partitions.val.head? → q.usage = p.usage →
      (updateSystemInfo q now' ui').diskTotalLabel =
          (updateSystemInfo p now ui).diskTotalLabel ∧
        (updateSystemInfo q now' ui').diskUsedLabel =
          (updateSystemInfo p now ui).diskUsedLabel ∧
        (updateSystemInfo q now' ui').diskFreeLabel =
          (updateSystemInfo p now ui).diskFreeLabel) := by
  refine ⟨?_, ?_, ?_⟩
  · intro h
    rw [updateSystemInfo_eq]
    simp only [diskTexts_of_failed h, and_self]
  · intro part rest usage he hv hu
    rw [updateSystemInfo_eq]
    simp only [diskTexts_of_ok he hv hu, and_self]
  · intro q now' ui' he hv hu
    rw [updateSystemInfo_eq, updateSystemInfo_eq]
    simp only [diskTexts_congr he hv hu, and_self]

/-- C6 on a system whose partition enumeration fails: the disk-total label is the
failure placeholder. -/
theorem C6_disk_fields_witness :
    (updateSystemInfo failingProviders sampleTime emptyUI).diskTotalLabel = failed :=
  ((C6_disk_fields failingProviders sampleTime emptyUI).1 (Or.inl (by decide))).1

/-- C7, as stated, fails: with both variables empty the user label is not "unknown". -/
theorem C7_not_unknown :
    failingProviders.getenv "USERNAME" = "" ∧ failingProviders.getenv "USER" = "" ∧
      (updateSystemInfo failingProviders sampleTime emptyUI).userLabel ≠ "unknown" := by
  refine ⟨rfl, rfl, ?_⟩
  rw [updateSystemInfo_eq]
  decide

/-- C7, amended: the user label is the value of `USERNAME` when it is non-empty, else
the value of `USER` when that is non-empty, else the text "未知". -/
theorem C7_user_field (p : Providers) (now : Time) (ui : SystemInfoUI) :
    (p.getenv "USERNAME" ≠ "" →
      (updateSystemInfo p now ui).userLabel = p.getenv "USERNAME") ∧
    (p.getenv "USERNAME" = "" → p.getenv "USER" ≠ "" →
      (updateSystemInfo p now ui).userLabel = p.getenv "USER") ∧
    (p.getenv "USERNAME" = "" → p.getenv "USER" = "" →
      (updateSystemInfo p now ui).userLabel = "未知") := by
  rw [updateSystemInfo_eq]
  simp only [userText_eq]
  refine ⟨?_, ?_, ?_⟩
  · intro h
    rw [if_neg h]
  · intro h1 h2
    rw [if_pos h1, if_neg h2]
  · intro h1 h2
    rw [if_pos h1, if_pos h2]

/-- C7, amended, on a system where only `USER` is set. -/
theorem C7_user_field_witness :
    (updateSystemInfo healthyProviders sampleTime emptyUI).userLabel =
      healthyProviders.getenv "USER" :=
  (C7_user_field healthyProviders sampleTime emptyUI).2.1 (by decide) (by decide)

/-- C8: two sets of provider outcomes that differ only in the query of one group give
the same text in every field outside that group; the routine is a total function with
no error result. -/
theorem C8_failure_confined (g : Group) (p q : Providers) (now : Time)
    (ui ui' : SystemInfoUI) (h : Providers.agreeExcept g p q) (f : Field)
    (hf : f.group ≠ some g) :
    (updateSystemInfo p now ui).text f = (updateSystemInfo q now ui').text f :=
  text_congr_outside h now ui ui' hf

/-- C8 for a failing CPU query: the hostname label is the one of the healthy run. -/
theorem C8_failure_confined_witness :
    (updateSystemInfo healthyProviders sampleTime emptyUI).text Field.Hostname =
      (updateSystemInfo { healthyProviders with cpuInfo := ⟨[], some "cpu unavailable"⟩ }
        sampleTime emptyUI).text Field.Hostname :=
  C8_failure_confined Group.cpu healthyProviders
    { healthyProviders with cpuInfo := ⟨[], some "cpu unavailable"⟩ } sampleTime emptyUI emptyUI
    ⟨fun _ => rfl, fun h => absurd rfl h, fun _ => rfl, fun _ => ⟨rfl, rfl⟩, fun _ => rfl,
      rfl, rfl, rfl, rfl⟩
    Field.Hostname (by decide)

/-- C9: every field other than Timestamp is a function of the provider outcomes alone:
it is the same for any wall-clock reading and any previous label texts, in particular on
a second run straight after the first. -/
theorem C9_idempotent (p : Providers) (now now' : Time) (ui ui' : SystemInfoUI) (f : Field)
    (hf : f ≠ Field.Timestamp) :
    (updateSystemInfo p now ui).text f = (updateSystemInfo p now' ui').text f ∧
      (updateSystemInfo p now' (updateSystemInfo p now ui)).text f =
        (updateSystemInfo p now ui).text f := by
  have key : ∀ (t t' : Time) (u u' : SystemInfoUI),
      (updateSystemInfo p t u).text f = (updateSystemInfo p t' u').text f := by
    intro t t' u u'
    rw [updateSystemInfo_eq, updateSystemInfo_eq]
    cases f <;> simp only [SystemInfoUI.text]
    exact absurd rfl hf
  exact ⟨key _ _ _ _, key _ _ _ _⟩

/-- C9 for the uptime field of a healthy system, five seconds apart. -/
theorem C9_idempotent_witness :
    (updateSystemInfo healthyProviders sampleTime emptyUI).text Field.Uptime =
        (updateSystemInfo healthyProviders laterTime staleUI).text Field.Uptime ∧
      (updateSystemInfo healthyProviders laterTime
          (updateSystemInfo healthyProviders sampleTime emptyUI)).text Field.Uptime =
        (updateSystemInfo healthyProviders sampleTime emptyUI).text Field.Uptime :=
  C9_idempotent healthyProviders sampleTime laterTime emptyUI staleUI Field.Uptime
    (by decide)

/-- C10: for an uptime of `u` seconds with `u * 10^9 ≤ 2^63 - 1`, the string that
`formatDuration` returns, which is the text of the uptime label, renders four numbers
days, hours, minutes, seconds, the locals of `formatDuration`, with `0 ≤ days`,
`0 ≤ hours < 24`, `0 ≤ minutes < 60`, `0 ≤ seconds < 60`, and
`days * 86400 + hours * 3600 + minutes * 60 + seconds = u`. -/
theorem C10_parts_recombine (u : ℕ) (h : u * 10 ^ 9 ≤ 2 ^ 63 - 1) :
    ∃ days hours minutes seconds : ℕ,
      formatDuration (uptimeDuration u) =
        Nat.repr days ++ "天 " ++ twoDigits hours ++ "小时 " ++ twoDigits minutes ++ "分 " ++
          twoDigits seconds ++ "秒" ∧
      (∀ (p : Providers) (now : Time) (ui : SystemInfoUI), p.uptime.err = none →
        p.uptime.val = u →
        (updateSystemInfo p now ui).uptimeLabel =
          Nat.repr days ++ "天 " ++ twoDigits hours ++ "小时 " ++ twoDigits minutes ++ "分 " ++
            twoDigits seconds ++ "秒") ∧
      durationParts (uptimeDuration u) =
        ((days : ℤ), (hours : ℤ), (minutes : ℤ), (seconds : ℤ)) ∧
      hours < 24 ∧ minutes < 60 ∧ seconds < 60 ∧
      days * 86400 + hours * 3600 + minutes * 60 + seconds = u := by
  have hs := seconds_lt_of_le h
  have hfmt := formatDuration_seconds hs
  rw [← uptimeDuration_of_le h] at hfmt
  refine ⟨u / 86400, u / 3600 % 24, u / 60 % 60, u % 60, hfmt, ?_, ?_, ?_, ?_, ?_, ?_⟩
  · intro p now ui he hv
    rw [updateSystemInfo_eq]
    simp only
    unfold uptimeText
    rw [he, hv]
    exact hfmt
  · rw [uptimeDuration_of_le h, durationParts_seconds hs]
  · omega
  · omega
  · omega
  · omega

/-- C10 at an uptime of 90061 seconds. -/
theorem C10_parts_recombine_witness :
    ∃ days hours minutes seconds : ℕ,
      formatDuration (uptimeDuration 90061) =
        Nat.repr days ++ "天 " ++ twoDigits hours ++ "小时 " ++ twoDigits minutes ++ "分 " ++
          twoDigits seconds ++ "秒" ∧
      (∀ (p : Providers) (now : Time) (ui : SystemInfoUI), p.uptime.err = none →
        p.uptime.val = 90061 →
        (updateSystemInfo p now ui).uptimeLabel =
          Nat.repr days ++ "天 " ++ twoDigits hours ++ "小时 " ++ twoDigits minutes ++ "分 " ++
            twoDigits seconds ++ "秒") ∧
      durationParts (uptimeDuration 90061) =
        ((days : ℤ), (hours : ℤ), (minutes : ℤ), (seconds : ℤ)) ∧
      hours < 24 ∧ minutes < 60 ∧ seconds < 60 ∧
      days * 86400 + hours * 3600 + minutes * 60 + seconds = 90061 :=
  C10_parts_recombine 90061 (by norm_num)

end SysInfo
